import Mathlib

/-!
Shallow embedding of the pagination and layout engine of `src/app/app.py`
(functions `_split_text`, `_draw_paragraph`, `_create_pdf`).

Conventions of the embedding:
* reportlab's `letter` page size is (612, 792) points and `inch` is 72 points;
  coordinates and widths are modelled as rationals.
* `pdfmetrics.stringWidth` (the external font-metrics table) is modelled as an
  abstract measurer `Measurer : String → String → ℕ → ℚ` taking the text, the
  font name and the font size.
* `ImageReader(...).getSize()` (decoding the image bytes of a figure's data
  URI) is modelled as an abstract function `FigureAsset → ℚ × ℚ`.
* The reportlab canvas is replaced by the list of draw instructions emitted:
  `drawString` becomes `Instr.text`, `drawImage` becomes `Instr.image`, and a
  mid-content `showPage` becomes `Instr.pageBreak`.  The final `showPage`
  before `pdf.save()` only closes the last page and emits nothing.
* Python's `str.split()` is modelled on the character list (ASCII whitespace),
  and `str.startswith` is modelled by `pyStartsWith`.
-/

/-- One point unit: reportlab `inch` = 72. -/
def inch : ℚ := 72

/-- reportlab `letter` page width (612 points). -/
def letterW : ℚ := 612

/-- reportlab `letter` page height (792 points). -/
def letterH : ℚ := 792

/-- Abstract font-metrics table: `pdfmetrics.stringWidth text font_name font_size`. -/
abbrev Measurer := String → String → ℕ → ℚ

/-- A draw instruction emitted to the canvas. -/
inductive Instr where
  | text (content : String) (x y : ℚ) (font : String) (size : ℕ)
  | image (x y w h : ℚ)
  | pageBreak
deriving DecidableEq

/-- `FigureAsset` dataclass of `app.py`. -/
structure FigureAsset where
  filename : String
  caption : String
  data_uri : String
deriving DecidableEq

/-- Characters on which Python's `str.split()` (no argument) splits. -/
def isPySpace (c : Char) : Bool :=
  c = ' ' || c = '\t' || c = '\n' || c = '\r' || c = '\x0b' || c = '\x0c'

/-- Helper for `pyWords`: scan the characters, accumulating the current word
(reversed) in `acc`. -/
def pyWordsAux : List Char → List Char → List String
  | [], acc => if acc = [] then [] else [String.mk acc.reverse]
  | c :: cs, acc =>
    if isPySpace c then
      if acc = [] then pyWordsAux cs []
      else String.mk acc.reverse :: pyWordsAux cs []
    else pyWordsAux cs (c :: acc)

/-- Python's `text.split()`: split on runs of whitespace, dropping empties. -/
def pyWords (l : List Char) : List String := pyWordsAux l []

/-- Boolean list-prefix test, used to model `str.startswith`. -/
def beginsList : List Char → List Char → Bool
  | [], _ => true
  | _ :: _, [] => false
  | p :: ps, s :: ss => p = s && beginsList ps ss

/-- Python's `s.startswith(p)`. -/
def pyStartsWith (s p : String) : Bool := beginsList p.data s.data

/-- The greedy accumulation loop of `_split_text` (lines 105-113 of `app.py`):
`current` is the line under construction, the second argument the remaining
words. -/
def splitLoop (M : Measurer) (max_width : ℚ) (font_name : String) (font_size : ℕ) :
    String → List String → List String
  | current, [] => [current]
  | current, word :: rest =>
    let test_line := current ++ " " ++ word
    if M test_line font_name font_size ≤ max_width then
      splitLoop M max_width font_name font_size test_line rest
    else
      current :: splitLoop M max_width font_name font_size word rest

/-- `_split_text(text, max_width, font_name, font_size)` of `app.py`. -/
def _split_text (M : Measurer) (text : String) (max_width : ℚ)
    (font_name : String) (font_size : ℕ) : List String :=
  match pyWords text.data with
  | [] => [""]
  | w :: ws => splitLoop M max_width font_name font_size w ws

/-- The line-drawing loop of `_draw_paragraph` (lines 128-134 of `app.py`):
for each line, break the page when `y < inch`, draw the line at the current
cursor, then decrement the cursor by `leading`.  Returns the emitted
instructions and the final cursor. -/
def drawLoop (M : Measurer) (x max_width : ℚ) (font_name : String)
    (font_size leading : ℕ) : List String → ℚ → List Instr × ℚ
  | [], y => ([], y)
  | line :: rest, y =>
    if y < inch then
      let res := drawLoop M x max_width font_name font_size leading rest
        (letterH - inch - leading)
      (Instr.pageBreak :: Instr.text line x (letterH - inch) font_name font_size :: res.1,
        res.2)
    else
      let res := drawLoop M x max_width font_name font_size leading rest (y - leading)
      (Instr.text line x y font_name font_size :: res.1, res.2)

/-- `_draw_paragraph(pdf, text, x, y, max_width, font_name, font_size, leading)`
of `app.py`, returning the emitted instructions together with the returned
cursor `y`. -/
def _draw_paragraph (M : Measurer) (text : String) (x y max_width : ℚ)
    (font_name : String) (font_size leading : ℕ) : List Instr × ℚ :=
  drawLoop M x max_width font_name font_size leading
    (_split_text M text max_width font_name font_size) y

/-- The image scale of `_create_pdf` (line 216 of `app.py`):
`min(max_width / image_width, max_height / image_height, 1.0)` with
`max_width = width - 2 * margin` and `max_height = 3.25 * inch`. -/
def figScale (image_width image_height : ℚ) : ℚ :=
  min ((letterW - 2 * inch) / image_width)
    (min (((3.25 : ℚ) * inch) / image_height) 1)

/-- The body of the figure loop of `_create_pdf` (lines 209-239 of `app.py`)
for one figure, after the `current_y < 2 * inch` pre-check: draw the image
when the data URI is an image data URI, then draw the caption. `g` models
`ImageReader(...).getSize()`. -/
def figStep (M : Measurer) (g : FigureAsset → ℚ × ℚ) (f : FigureAsset)
    (current_y : ℚ) : List Instr × ℚ :=
  let afterImage : List Instr × ℚ :=
    if pyStartsWith f.data_uri "data:image/" then
      let image_width := (g f).1
      let image_height := (g f).2
      let scale := figScale image_width image_height
      let draw_width := image_width * scale
      let draw_height := image_height * scale
      ([Instr.image inch (current_y - draw_height) draw_width draw_height],
        current_y - (draw_height + 8))
    else ([], current_y)
  let cap := _draw_paragraph M f.caption inch afterImage.2 (letterW - 2 * inch)
    "Helvetica-Oblique" 9 12
  (afterImage.1 ++ cap.1, cap.2 - 10)

/-- The figure loop of `_create_pdf` (lines 205-239 of `app.py`): for each
figure, force a page break when `current_y < 2 * inch`, then run `figStep`. -/
def figuresLoop (M : Measurer) (g : FigureAsset → ℚ × ℚ) :
    List FigureAsset → ℚ → List Instr × ℚ
  | [], current_y => ([], current_y)
  | f :: fs, current_y =>
    let brk : List Instr := if current_y < 2 * inch then [Instr.pageBreak] else []
    let y0 : ℚ := if current_y < 2 * inch then letterH - inch else current_y
    let s := figStep M g f y0
    let r := figuresLoop M g fs s.2
    (brk ++ s.1 ++ r.1, r.2)

/-- The body-paragraph loop of `_create_pdf` (lines 181-192 of `app.py`). -/
def bodyLoop (M : Measurer) : List String → ℚ → List Instr × ℚ
  | [], current_y => ([], current_y)
  | p :: ps, current_y =>
    let d := _draw_paragraph M p inch current_y (letterW - 2 * inch) "Helvetica" 11 15
    let r := bodyLoop M ps (d.2 - 8)
    (d.1 ++ r.1, r.2)

/-- `_create_pdf(title, abstract, body_sections, figures)` of `app.py`
(lines 138-244), as the list of emitted draw instructions. -/
def _create_pdf (M : Measurer) (g : FigureAsset → ℚ × ℚ) (title abstract : String)
    (body_sections : List String) (figures : List FigureAsset) : List Instr :=
  let t := _draw_paragraph M (if title = "" then "Untitled Manuscript" else title)
    inch (letterH - inch) (letterW - 2 * inch) "Helvetica-Bold" 18 22
  let ah := _draw_paragraph M "Abstract" inch (t.2 - 10) (letterW - 2 * inch)
    "Helvetica-Bold" 12 16
  let ab := _draw_paragraph M abstract inch ah.2 (letterW - 2 * inch) "Helvetica" 11 15
  let b := bodyLoop M body_sections (ab.2 - 12)
  let figPart : List Instr :=
    if figures.isEmpty then []
    else
      let fh := _draw_paragraph M "Figures" inch b.2 (letterW - 2 * inch)
        "Helvetica-Bold" 12 16
      fh.1 ++ (figuresLoop M g figures fh.2).1
  t.1 ++ ah.1 ++ ab.1 ++ b.1 ++ figPart

/-- The y-coordinates of the `Instr.text` instructions of a list, in order. -/
def textYs (l : List Instr) : List ℚ :=
  l.filterMap fun i =>
    match i with
    | Instr.text _ _ y _ _ => some y
    | _ => none

/-- The contents of the `Instr.text` instructions of a list, in order. -/
def textContents (l : List Instr) : List String :=
  l.filterMap fun i =>
    match i with
    | Instr.text s _ _ _ _ => some s
    | _ => none

/-- Group an instruction list into pages, splitting at `Instr.pageBreak`. -/
def splitPages : List Instr → List (List Instr)
  | [] => [[]]
  | Instr.pageBreak :: rest => [] :: splitPages rest
  | i :: rest => (i :: (splitPages rest).headI) :: (splitPages rest).tail

/-- Strict descent relation on y-coordinates (second strictly below first). -/
def yDesc (a b : ℚ) : Prop := b < a

/-- Cursor-trace relation: `Trace y l y'` holds when `l` is a list of
instructions that the engine can emit starting with the cursor at `y` and
ending with it at `y'`: a text is drawn exactly at the cursor and strictly
lowers it, an image never raises it, a page break resets it to the top of
the content area, and the cursor may silently move down (trailing gaps). -/
inductive Trace : ℚ → List Instr → ℚ → Prop where
  | nil : ∀ {y}, Trace y [] y
  | text : ∀ {rest : List Instr} {y' : ℚ} (s : String) (x ty : ℚ) (f : String)
      (sz : ℕ) {y2 : ℚ}, y2 < ty → Trace y2 rest y' →
      Trace ty (Instr.text s x ty f sz :: rest) y'
  | img : ∀ {rest : List Instr} {y' y1 : ℚ} (x yy w h : ℚ) {y2 : ℚ}, y2 ≤ y1 →
      Trace y2 rest y' → Trace y1 (Instr.image x yy w h :: rest) y'
  | brk : ∀ {rest : List Instr} {y' y1 : ℚ}, Trace (letterH - inch) rest y' →
      Trace y1 (Instr.pageBreak :: rest) y'
  | gap : ∀ {l : List Instr} {y' y1 y2 : ℚ}, y2 ≤ y1 → Trace y2 l y' →
      Trace y1 l y'

/-- Bounded-descent predicate: the texts of the current page, read from a
bound `b` (strict when `strict`), have strictly decreasing y-coordinates, and
every later page restarts from the top of the content area. -/
def okFrom : Bool → ℚ → List Instr → Prop
  | _, _, [] => True
  | strict, b, Instr.text _ _ ty _ _ :: rest =>
      (if strict then ty < b else ty ≤ b) ∧ okFrom true ty rest
  | strict, b, Instr.image _ _ _ _ :: rest => okFrom strict b rest
  | _, _, Instr.pageBreak :: rest => okFrom false (letterH - inch) rest

/-- The property claimed for an all-empty document: every emitted instruction
is a line of the default title heading (drawn in Helvetica-Bold 18). -/
def onlyTitleHeading (l : List Instr) : Prop :=
  ∀ i ∈ l, ∃ s x y, i = Instr.text s x y "Helvetica-Bold" 18

/-- Join a list of words with single spaces. -/
def joinSp : List String → String
  | [] => ""
  | [w] => w
  | w :: ws => w ++ " " ++ joinSp ws

/-- Concrete measurer for witnesses: width of a string = its length. -/
def lenMeasure : Measurer := fun s _ _ => (s.length : ℚ)

/-- Concrete image-size oracle yielding degenerate sizes (unused sizes). -/
def zeroSize : FigureAsset → ℚ × ℚ := fun _ => (0, 0)

/-- Concrete image-size oracle: every image is 100 × 100. -/
def squareSize : FigureAsset → ℚ × ℚ := fun _ => (100, 100)

/-- Concrete figure with a well-formed image data URI. -/
def sampleFig : FigureAsset :=
  { filename := "f.png", caption := "cap", data_uri := "data:image/png;base64,xyz" }

/-- Concrete figure whose data URI is not an image data URI. -/
def plainFig : FigureAsset :=
  { filename := "f.bin", caption := "cap", data_uri := "x" }

/-! ### Lemmas about the line breaker -/

lemma pyWordsAux_all_space : ∀ l : List Char, (∀ c ∈ l, isPySpace c = true) →
    pyWordsAux l [] = [] := by
  intro l
  induction l with
  | nil => intro _; simp [pyWordsAux]
  | cons c cs ih =>
    intro h
    have hc := h c (List.mem_cons_self c cs)
    simp only [pyWordsAux, hc, if_true, if_pos rfl]
    exact ih fun d hd => h d (List.mem_cons_of_mem c hd)

lemma splitLoop_ne_nil (M : Measurer) (mw : ℚ) (fn : String) (fsz : ℕ) :
    ∀ (ws : List String) (cur : String), splitLoop M mw fn fsz cur ws ≠ [] := by
  intro ws
  induction ws with
  | nil => intro cur; simp [splitLoop]
  | cons w rest ih =>
    intro cur
    simp only [splitLoop]
    split
    · exact ih _
    · simp

lemma joinSp_cons (a : String) (l : List String) (h : l ≠ []) :
    joinSp (a :: l) = a ++ " " ++ joinSp l := by
  cases l with
  | nil => exact absurd rfl h
  | cons b bs => rfl

lemma joinSp_glue (a b : String) (l : List String) :
    joinSp ((a ++ " " ++ b) :: l) = a ++ " " ++ joinSp (b :: l) := by
  cases l with
  | nil => simp [joinSp, String.append_assoc]
  | cons r rs =>
    rw [joinSp_cons _ _ (by simp), joinSp_cons b (r :: rs) (by simp)]
    simp [String.append_assoc]

lemma splitLoop_join (M : Measurer) (mw : ℚ) (fn : String) (fsz : ℕ) :
    ∀ (ws : List String) (cur : String),
      joinSp (splitLoop M mw fn fsz cur ws) = joinSp (cur :: ws) := by
  intro ws
  induction ws with
  | nil => intro cur; rfl
  | cons w rest ih =>
    intro cur
    simp only [splitLoop]
    split
    · rw [ih]
      exact joinSp_glue cur w rest
    · rw [joinSp_cons cur _ (splitLoop_ne_nil M mw fn fsz rest w), ih]
      rfl

lemma drawLoop_contents (M : Measurer) (x mw : ℚ) (fn : String) (fsz ld : ℕ) :
    ∀ (lines : List String) (y : ℚ),
      textContents (drawLoop M x mw fn fsz ld lines y).1 = lines := by
  intro lines
  induction lines with
  | nil => intro y; rfl
  | cons line rest ih =>
    intro y
    simp only [drawLoop]
    split
    · simp [textContents, List.filterMap_cons] at ih ⊢
      exact ih _
    · simp [textContents, List.filterMap_cons] at ih ⊢
      exact ih _

/-- C3: the line breaker splits on whitespace and wraps greedily.  An
all-whitespace (or empty) input yields exactly `[""]`; otherwise `_split_text`
runs the greedy loop `splitLoop` started on the first word, and `splitLoop`
appends each subsequent word to the current line with a single space exactly
when the measured width of the tentative line is at most `max_width`, and
otherwise closes the current line and starts a new one with that word. -/
theorem greedy_wrap_characterization (M : Measurer) (mw : ℚ) (fn : String) (fsz : ℕ) :
    (∀ s : String, (∀ c ∈ s.data, isPySpace c = true) → _split_text M s mw fn fsz = [""]) ∧
    (∀ (s w : String) (ws : List String), pyWords s.data = w :: ws →
        _split_text M s mw fn fsz = splitLoop M mw fn fsz w ws) ∧
    (∀ cur : String, splitLoop M mw fn fsz cur [] = [cur]) ∧
    (∀ (cur w : String) (ws : List String),
        (M (cur ++ " " ++ w) fn fsz ≤ mw →
          splitLoop M mw fn fsz cur (w :: ws) = splitLoop M mw fn fsz (cur ++ " " ++ w) ws) ∧
        (¬ M (cur ++ " " ++ w) fn fsz ≤ mw →
          splitLoop M mw fn fsz cur (w :: ws) = cur :: splitLoop M mw fn fsz w ws)) := by
  refine ⟨?_, ?_, ?_, ?_⟩
  · intro s h
    simp [_split_text, pyWords, pyWordsAux_all_space s.data h]
  · intro s w ws h
    simp [_split_text, pyWords] at h ⊢
    simp [h]
  · intro cur; rfl
  · intro cur w ws
    constructor
    · intro h; simp [splitLoop, h]
    · intro h; simp [splitLoop, h]

/-- Witness for C3 at concrete inputs: a whitespace-only string wraps to a
single empty line, and two short words are greedily joined on one line. -/
theorem greedy_wrap_characterization_witness :
    _split_text lenMeasure " \t " 100 "Helvetica" 11 = [""] ∧
    splitLoop lenMeasure 100 "Helvetica" 11 "ab" ["cd"] = ["ab cd"] := by
  have h := greedy_wrap_characterization lenMeasure 100 "Helvetica" 11
  refine ⟨h.1 " \t " (by decide), ?_⟩
  have h4 := (h.2.2.2 "ab" "cd" []).1 (by decide)
  rw [h4]
  exact h.2.2.1 ("ab" ++ " " ++ "cd")

/-- C9: joining the line breaker's output with single spaces gives the same
string as joining the whitespace-split words with single spaces: wrapping
keeps every word exactly once, unsplit and in order. -/
theorem wrap_join_round_trip (M : Measurer) (mw : ℚ) (fn : String) (fsz : ℕ)
    (s : String) (h : pyWords s.data ≠ []) :
    joinSp (_split_text M s mw fn fsz) = joinSp (pyWords s.data) := by
  rcases hw : pyWords s.data with _ | ⟨w, ws⟩
  · exact absurd hw h
  · simp only [_split_text, hw]
    rw [splitLoop_join]

/-- Witness for C9 at a concrete input that forces a line break. -/
theorem wrap_join_round_trip_witness :
    joinSp (_split_text lenMeasure "aa bb" 3 "Helvetica" 11) =
      joinSp (pyWords "aa bb".data) :=
  wrap_join_round_trip lenMeasure 3 "Helvetica" 11 "aa bb" (by decide)

/-- C5: a single word, even one whose measured width exceeds the maximum
width, is returned by the line breaker as a standalone line, and the
paragraph renderer emits exactly one Text instruction carrying it verbatim. -/
theorem overlong_word_standalone (M : Measurer) (mw x y : ℚ) (fn : String)
    (fsz ld : ℕ) (s w : String) (hw : pyWords s.data = [w])
    (hwide : mw < M w fn fsz) :
    _split_text M s mw fn fsz = [w] ∧
    textContents (_draw_paragraph M s x y mw fn fsz ld).1 = [w] := by
  have hsplit : _split_text M s mw fn fsz = [w] := by
    simp only [_split_text, hw]
    rfl
  refine ⟨hsplit, ?_⟩
  rw [_draw_paragraph, hsplit]
  exact drawLoop_contents M x mw fn fsz ld [w] y

/-- Witness for C5: a 15-character word against a max width of 5. -/
theorem overlong_word_standalone_witness :
    _split_text lenMeasure "extraordinarily" 5 "Helvetica" 11 = ["extraordinarily"] ∧
    textContents
      (_draw_paragraph lenMeasure "extraordinarily" 72 700 5 "Helvetica" 11 15).1 =
      ["extraordinarily"] := by
  refine overlong_word_standalone lenMeasure 5 72 700 "Helvetica" 11 15
    "extraordinarily" "extraordinarily" (by decide) ?_
  simp only [lenMeasure]
  rw [(by decide : "extraordinarily".length = 15)]
  norm_num

/-! ### Page-break behavior of the paragraph renderer -/

lemma drawLoop_no_image (M : Measurer) (x mw : ℚ) (fn : String) (fsz ld : ℕ) :
    ∀ (lines : List String) (y ix iy iw ihh : ℚ),
      Instr.image ix iy iw ihh ∉ (drawLoop M x mw fn fsz ld lines y).1 := by
  intro lines
  induction lines with
  | nil => intro y ix iy iw ihh; simp [drawLoop]
  | cons line rest ih2 =>
    intro y ix iy iw ihh
    simp only [drawLoop]
    split
    · intro hmem
      simp only [List.mem_cons] at hmem
      rcases hmem with h1 | h1 | h1
      · exact Instr.noConfusion h1
      · exact Instr.noConfusion h1
      · exact ih2 _ _ _ _ _ h1
    · intro hmem
      simp only [List.mem_cons] at hmem
      rcases hmem with h1 | h1
      · exact Instr.noConfusion h1
      · exact ih2 _ _ _ _ _ h1

lemma drawLoop_single_mem (M : Measurer) (x mw : ℚ) (fn : String) (fsz ld : ℕ)
    (w : String) (y : ℚ) :
    ∃ ty, Instr.text w x ty fn fsz ∈ (drawLoop M x mw fn fsz ld [w] y).1 := by
  simp only [drawLoop]
  split
  · exact ⟨letterH - inch, by simp⟩
  · exact ⟨y, by simp⟩

lemma split_single_word (M : Measurer) (mw : ℚ) (fn : String) (fsz : ℕ)
    (s w : String) (h : pyWords s.data = [w]) :
    _split_text M s mw fn fsz = [w] := by
  simp only [_split_text, h]
  rfl

lemma draw_hello_eval :
    _draw_paragraph lenMeasure "hello" 72 75 468 "Helvetica" 11 15 =
      ([Instr.text "hello" 72 75 "Helvetica" 11], 60) := by
  simp only [_draw_paragraph]
  rw [(by decide : _split_text lenMeasure "hello" 468 "Helvetica" 11 = ["hello"])]
  norm_num [drawLoop, inch]

/-- C1 is false as stated: drawing one line from y = 75 with leading 15, the
line's bottom edge (75 - 15 = 60) falls below the 72-point bottom margin, yet
the renderer performs no page break there (it draws the line at y = 75). -/
theorem page_break_condition_counterexample :
    (75 : ℚ) - 15 < 72 ∧
    Instr.pageBreak ∉ (_draw_paragraph lenMeasure "hello" 72 75 468 "Helvetica" 11 15).1 := by
  constructor
  · norm_num
  · simp [draw_hello_eval]

/-- C1 (amended): for every text line about to be drawn, a page break is
performed exactly when the cursor y is already strictly below the bottom
margin (`y < inch`), not when the line's bottom edge would fall below it; on
such a break the cursor resets to the top of a new page (`letterH - inch`)
and the line is drawn there. -/
theorem text_line_page_break_iff (M : Measurer) (x mw : ℚ) (fn : String)
    (fsz ld : ℕ) (line : String) (rest : List String) (y : ℚ) :
    drawLoop M x mw fn fsz ld (line :: rest) y =
      if y < inch then
        (Instr.pageBreak :: Instr.text line x (letterH - inch) fn fsz ::
            (drawLoop M x mw fn fsz ld rest (letterH - inch - ld)).1,
          (drawLoop M x mw fn fsz ld rest (letterH - inch - ld)).2)
      else
        (Instr.text line x y fn fsz :: (drawLoop M x mw fn fsz ld rest (y - ld)).1,
          (drawLoop M x mw fn fsz ld rest (y - ld)).2) := by
  simp only [drawLoop]

/-- C7: before drawing any figure, if the cursor is below the 2-inch
threshold (2 × margin), the loop forces a page break and restarts that figure
from the top of a fresh page - regardless of the figure itself - and
otherwise inserts no break. -/
theorem figure_min_space_break (M : Measurer) (g : FigureAsset → ℚ × ℚ)
    (f : FigureAsset) (fs : List FigureAsset) (y : ℚ) :
    (y < 2 * inch → figuresLoop M g (f :: fs) y =
      (Instr.pageBreak :: ((figStep M g f (letterH - inch)).1 ++
          (figuresLoop M g fs (figStep M g f (letterH - inch)).2).1),
        (figuresLoop M g fs (figStep M g f (letterH - inch)).2).2)) ∧
    (¬ y < 2 * inch → figuresLoop M g (f :: fs) y =
      ((figStep M g f y).1 ++ (figuresLoop M g fs (figStep M g f y).2).1,
        (figuresLoop M g fs (figStep M g f y).2).2)) := by
  constructor
  · intro h; simp [figuresLoop, h]
  · intro h; simp [figuresLoop, h]

/-- C10: for a figure whose data URI does not start with "data:image/", the
loop emits no Image instruction for that figure but still renders its caption
as a paragraph, and the run continues with the remaining figures from the
updated cursor. -/
theorem non_image_figure_caption_only (M : Measurer) (g : FigureAsset → ℚ × ℚ)
    (f : FigureAsset) (fs : List FigureAsset) (y : ℚ)
    (h : pyStartsWith f.data_uri "data:image/" = false) :
    (figuresLoop M g (f :: fs) y =
      ((if y < 2 * inch then [Instr.pageBreak] else []) ++
          (_draw_paragraph M f.caption inch (if y < 2 * inch then letterH - inch else y)
            (letterW - 2 * inch) "Helvetica-Oblique" 9 12).1 ++
          (figuresLoop M g fs
            ((_draw_paragraph M f.caption inch (if y < 2 * inch then letterH - inch else y)
              (letterW - 2 * inch) "Helvetica-Oblique" 9 12).2 - 10)).1,
        (figuresLoop M g fs
            ((_draw_paragraph M f.caption inch (if y < 2 * inch then letterH - inch else y)
              (letterW - 2 * inch) "Helvetica-Oblique" 9 12).2 - 10)).2)) ∧
    (∀ ix iy iw ihh : ℚ,
      Instr.image ix iy iw ihh ∉
        (if y < 2 * inch then [Instr.pageBreak] else []) ++
          (_draw_paragraph M f.caption inch (if y < 2 * inch then letterH - inch else y)
            (letterW - 2 * inch) "Helvetica-Oblique" 9 12).1) := by
  constructor
  · simp [figuresLoop, figStep, h]
  · intro ix iy iw ihh hmem
    rw [List.mem_append] at hmem
    rcases hmem with h1 | h1
    · split at h1
      · simp at h1
      · simp at h1
    · rw [_draw_paragraph] at h1
      exact drawLoop_no_image M inch (letterW - 2 * inch) "Helvetica-Oblique" 9 12
        _ _ _ _ _ _ h1

/-! ### Image scaling -/

lemma contentW : letterW - 2 * inch = 468 := by norm_num [letterW, inch]

lemma topY : letterH - inch = 720 := by norm_num [letterH, inch]

lemma figScale_le_width (iw ihh : ℚ) : figScale iw ihh ≤ (letterW - 2 * inch) / iw :=
  min_le_left _ _

lemma figScale_le_height (iw ihh : ℚ) :
    figScale iw ihh ≤ ((3.25 : ℚ) * inch) / ihh :=
  le_trans (min_le_right _ _) (min_le_left _ _)

lemma figScale_bounds (iw ihh : ℚ) (hiw : 0 < iw) (hih : 0 < ihh) :
    iw * figScale iw ihh ≤ letterW - 2 * inch ∧
    ihh * figScale iw ihh ≤ (3.25 : ℚ) * inch := by
  constructor
  · calc iw * figScale iw ihh ≤ iw * ((letterW - 2 * inch) / iw) :=
          mul_le_mul_of_nonneg_left (figScale_le_width iw ihh) hiw.le
      _ = letterW - 2 * inch := by field_simp
  · calc ihh * figScale iw ihh ≤ ihh * (((3.25 : ℚ) * inch) / ihh) :=
          mul_le_mul_of_nonneg_left (figScale_le_height iw ihh) hih.le
      _ = (3.25 : ℚ) * inch := by field_simp

lemma bodyLoop_no_image (M : Measurer) :
    ∀ (ps : List String) (y ix iy iw ihh : ℚ),
      Instr.image ix iy iw ihh ∉ (bodyLoop M ps y).1 := by
  intro ps
  induction ps with
  | nil => intro y ix iy iw ihh; simp [bodyLoop]
  | cons p rest ih =>
    intro y ix iy iw ihh
    simp only [bodyLoop]
    intro hmem
    rw [List.mem_append] at hmem
    rcases hmem with h1 | h1
    · rw [_draw_paragraph] at h1
      exact drawLoop_no_image M inch (letterW - 2 * inch) "Helvetica" 11 15 _ _ _ _ _ _ h1
    · exact ih _ _ _ _ _ h1

lemma figuresLoop_image_bounds (M : Measurer) (g : FigureAsset → ℚ × ℚ) :
    ∀ (figs : List FigureAsset) (y : ℚ),
      (∀ f ∈ figs, 0 < (g f).1 ∧ 0 < (g f).2) →
      ∀ ix iy w hh, Instr.image ix iy w hh ∈ (figuresLoop M g figs y).1 →
        w ≤ letterW - 2 * inch ∧ hh ≤ (3.25 : ℚ) * inch := by
  intro figs
  induction figs with
  | nil => intro y hg ix iy w hh hmem; simp [figuresLoop] at hmem
  | cons f fs ih =>
    intro y hg ix iy w hh hmem
    simp only [figuresLoop] at hmem
    rw [List.mem_append, List.mem_append] at hmem
    rcases hmem with (h1 | h1) | h1
    · split at h1
      · simp at h1
      · simp at h1
    · simp only [figStep] at h1
      rw [List.mem_append] at h1
      rcases h1 with h2 | h2
      · split at h2
        · simp only [List.mem_singleton] at h2
          obtain ⟨hf1, hf2⟩ := hg f (List.mem_cons_self f fs)
          cases h2
          exact figScale_bounds (g f).1 (g f).2 hf1 hf2
        · simp at h2
      · rw [_draw_paragraph] at h2
        exact absurd h2
          (drawLoop_no_image M inch (letterW - 2 * inch) "Helvetica-Oblique" 9 12 _ _ _ _ _ _)
    · exact ih _ (fun d hd => hg d (List.mem_cons_of_mem f hd)) _ _ _ _ h1

/-- C4: the drawing scale is min(max_content_width / image_width,
max_image_height / image_height, 1.0), and consequently every Image
instruction emitted for figures with positive native dimensions has
draw_width at most the content width (letterW - 2 inch = 468) and
draw_height at most the maximum image height (3.25 inch = 234). -/
theorem image_scale_bounded (M : Measurer) (g : FigureAsset → ℚ × ℚ)
    (title abstract : String) (body : List String) (figs : List FigureAsset)
    (hg : ∀ f ∈ figs, 0 < (g f).1 ∧ 0 < (g f).2) :
    (∀ iw ihh : ℚ, figScale iw ihh =
        min ((letterW - 2 * inch) / iw) (min (((3.25 : ℚ) * inch) / ihh) 1)) ∧
    (∀ ix iy w hh, Instr.image ix iy w hh ∈ _create_pdf M g title abstract body figs →
        w ≤ letterW - 2 * inch ∧ hh ≤ (3.25 : ℚ) * inch) := by
  refine ⟨fun iw ihh => rfl, ?_⟩
  intro ix iy w hh hmem
  simp only [_create_pdf] at hmem
  rw [List.mem_append, List.mem_append, List.mem_append, List.mem_append] at hmem
  rcases hmem with (((h1 | h1) | h1) | h1) | h1
  · rw [_draw_paragraph] at h1
    exact absurd h1
      (drawLoop_no_image M inch (letterW - 2 * inch) "Helvetica-Bold" 18 22 _ _ _ _ _ _)
  · rw [_draw_paragraph] at h1
    exact absurd h1
      (drawLoop_no_image M inch (letterW - 2 * inch) "Helvetica-Bold" 12 16 _ _ _ _ _ _)
  · rw [_draw_paragraph] at h1
    exact absurd h1
      (drawLoop_no_image M inch (letterW - 2 * inch) "Helvetica" 11 15 _ _ _ _ _ _)
  · exact absurd h1 (bodyLoop_no_image M _ _ _ _ _ _)
  · split at h1
    · simp at h1
    · rw [List.mem_append] at h1
      rcases h1 with h2 | h2
      · rw [_draw_paragraph] at h2
        exact absurd h2
          (drawLoop_no_image M inch (letterW - 2 * inch) "Helvetica-Bold" 12 16 _ _ _ _ _ _)
      · exact figuresLoop_image_bounds M g figs _ hg _ _ _ _ h2

/-! ### The all-empty document -/

lemma split_empty (M : Measurer) (mw : ℚ) (fn : String) (fsz : ℕ) :
    _split_text M "" mw fn fsz = [""] := by
  simp only [_split_text, (by decide : pyWords "".data = ([] : List String))]

lemma split_default_title (M : Measurer) (mw : ℚ)
    (hfit : M "Untitled Manuscript" "Helvetica-Bold" 18 ≤ mw) :
    _split_text M "Untitled Manuscript" mw "Helvetica-Bold" 18 =
      ["Untitled Manuscript"] := by
  simp only [_split_text,
    (by decide : pyWords "Untitled Manuscript".data = ["Untitled", "Manuscript"]),
    splitLoop, (by decide : "Untitled" ++ " " ++ "Manuscript" = "Untitled Manuscript")]
  rw [if_pos hfit]

lemma draw_single_eval (M : Measurer) (w : String) (x y mw : ℚ) (fn : String)
    (fsz ld : ℕ) (hw : pyWords w.data = [w]) (hy : ¬ y < inch) :
    _draw_paragraph M w x y mw fn fsz ld = ([Instr.text w x y fn fsz], y - ld) := by
  rw [_draw_paragraph, split_single_word M mw fn fsz w w hw]
  simp only [drawLoop]
  rw [if_neg hy]

lemma draw_empty_eval (M : Measurer) (x y mw : ℚ) (fn : String) (fsz ld : ℕ)
    (hy : ¬ y < inch) :
    _draw_paragraph M "" x y mw fn fsz ld = ([Instr.text "" x y fn fsz], y - ld) := by
  rw [_draw_paragraph, split_empty]
  simp only [drawLoop]
  rw [if_neg hy]

lemma create_pdf_empty_aux (M : Measurer) (g : FigureAsset → ℚ × ℚ)
    (hfit : M "Untitled Manuscript" "Helvetica-Bold" 18 ≤ letterW - 2 * inch) :
    _create_pdf M g "" "" [] [] =
      [Instr.text "Untitled Manuscript" 72 720 "Helvetica-Bold" 18,
        Instr.text "Abstract" 72 688 "Helvetica-Bold" 12,
        Instr.text "" 72 672 "Helvetica" 11] := by
  rw [contentW] at hfit
  have hif : (if ("" : String) = "" then "Untitled Manuscript" else "") =
      "Untitled Manuscript" := rfl
  have hd1 : _draw_paragraph M "Untitled Manuscript" 72 720 468 "Helvetica-Bold" 18 22 =
      ([Instr.text "Untitled Manuscript" 72 720 "Helvetica-Bold" 18], 698) := by
    rw [_draw_paragraph, split_default_title M 468 hfit]
    simp only [drawLoop]
    rw [if_neg (by norm_num [inch])]
    norm_num
  have hd2 := draw_single_eval M "Abstract" 72 688 468 "Helvetica-Bold" 12 16
    (by decide) (by norm_num [inch])
  have hd3 := draw_empty_eval M 72 672 468 "Helvetica" 11 15 (by norm_num [inch])
  norm_num [_create_pdf, hif, hd1, hd2, hd3, bodyLoop, letterH, letterW, inch]

/-- C2 is false as stated: for the all-empty document the engine does not
emit only the default title heading - it also emits the "Abstract" heading
(Helvetica-Bold 12) and a blank abstract line (Helvetica 11). -/
theorem empty_document_counterexample :
    ¬ onlyTitleHeading (_create_pdf lenMeasure zeroSize "" "" [] []) := by
  intro h
  have hfit : lenMeasure "Untitled Manuscript" "Helvetica-Bold" 18 ≤ letterW - 2 * inch := by
    simp only [lenMeasure]
    rw [(by decide : "Untitled Manuscript".length = 19)]
    norm_num [letterW, inch]
  have heval := create_pdf_empty_aux lenMeasure zeroSize hfit
  have hmem : Instr.text "Abstract" 72 688 "Helvetica-Bold" 12 ∈
      _create_pdf lenMeasure zeroSize "" "" [] [] := by
    rw [heval]; simp
  obtain ⟨s, x, y, hx⟩ := h _ hmem
  exact absurd (congrArg (fun i => match i with
    | Instr.text _ _ _ _ sz => sz
    | _ => 0) hx) (by norm_num)

/-- C2 (amended): an all-empty document (no title, no abstract, no body, no
figures) yields a valid one-page layout consisting of exactly the default
title heading "Untitled Manuscript", the always-present "Abstract" heading,
and one blank abstract line - with no Image and no PageBreak instruction
(hence a single page). -/
theorem empty_document_layout (M : Measurer) (g : FigureAsset → ℚ × ℚ)
    (hfit : M "Untitled Manuscript" "Helvetica-Bold" 18 ≤ letterW - 2 * inch) :
    _create_pdf M g "" "" [] [] =
      [Instr.text "Untitled Manuscript" 72 720 "Helvetica-Bold" 18,
        Instr.text "Abstract" 72 688 "Helvetica-Bold" 12,
        Instr.text "" 72 672 "Helvetica" 11] :=
  create_pdf_empty_aux M g hfit

/-- Witness for C2's amended theorem at the concrete length measurer. -/
theorem empty_document_layout_witness :
    _create_pdf lenMeasure zeroSize "" "" [] [] =
      [Instr.text "Untitled Manuscript" 72 720 "Helvetica-Bold" 18,
        Instr.text "Abstract" 72 688 "Helvetica-Bold" 12,
        Instr.text "" 72 672 "Helvetica" 11] := by
  refine empty_document_layout lenMeasure zeroSize ?_
  simp only [lenMeasure]
  rw [(by decide : "Untitled Manuscript".length = 19)]
  norm_num [letterW, inch]

/-! ### Emission order -/

/-- C6: instructions are emitted in a fixed order: the title heading, then
the "Abstract" heading and the abstract paragraph, then the body paragraphs
in document order, then - only when at least one figure exists - the
"Figures" heading followed by each figure's image and caption in document
order.  A Text instruction for the "Abstract" heading is emitted for every
document (even with an empty abstract), while for a document without figures
the layout ends after the body paragraphs (no "Figures" segment exists). -/
theorem emission_order (M : Measurer) (g : FigureAsset → ℚ × ℚ)
    (title abstract : String) (body : List String) (figs : List FigureAsset) :
    (_create_pdf M g title abstract body figs =
      (let t := _draw_paragraph M (if title = "" then "Untitled Manuscript" else title)
        inch (letterH - inch) (letterW - 2 * inch) "Helvetica-Bold" 18 22
      let ah := _draw_paragraph M "Abstract" inch (t.2 - 10) (letterW - 2 * inch)
        "Helvetica-Bold" 12 16
      let ab := _draw_paragraph M abstract inch ah.2 (letterW - 2 * inch) "Helvetica" 11 15
      let b := bodyLoop M body (ab.2 - 12)
      let fh := _draw_paragraph M "Figures" inch b.2 (letterW - 2 * inch)
        "Helvetica-Bold" 12 16
      t.1 ++ ah.1 ++ ab.1 ++ b.1 ++
        (if figs.isEmpty then [] else fh.1 ++ (figuresLoop M g figs fh.2).1))) ∧
    (∃ y, Instr.text "Abstract" inch y "Helvetica-Bold" 12 ∈
      _create_pdf M g title abstract body figs) ∧
    (figs = [] → _create_pdf M g title abstract body figs =
      (let t := _draw_paragraph M (if title = "" then "Untitled Manuscript" else title)
        inch (letterH - inch) (letterW - 2 * inch) "Helvetica-Bold" 18 22
      let ah := _draw_paragraph M "Abstract" inch (t.2 - 10) (letterW - 2 * inch)
        "Helvetica-Bold" 12 16
      let ab := _draw_paragraph M abstract inch ah.2 (letterW - 2 * inch) "Helvetica" 11 15
      let b := bodyLoop M body (ab.2 - 12)
      t.1 ++ ah.1 ++ ab.1 ++ b.1)) := by
  refine ⟨rfl, ?_, ?_⟩
  · obtain ⟨ty, hty⟩ := drawLoop_single_mem M inch (letterW - 2 * inch)
      "Helvetica-Bold" 12 16 "Abstract"
      ((_draw_paragraph M (if title = "" then "Untitled Manuscript" else title) inch
        (letterH - inch) (letterW - 2 * inch) "Helvetica-Bold" 18 22).2 - 10)
    refine ⟨ty, ?_⟩
    have hd : (_draw_paragraph M "Abstract" inch
        ((_draw_paragraph M (if title = "" then "Untitled Manuscript" else title) inch
          (letterH - inch) (letterW - 2 * inch) "Helvetica-Bold" 18 22).2 - 10)
        (letterW - 2 * inch) "Helvetica-Bold" 12 16).1 =
        (drawLoop M inch (letterW - 2 * inch) "Helvetica-Bold" 12 16 ["Abstract"]
          ((_draw_paragraph M (if title = "" then "Untitled Manuscript" else title) inch
            (letterH - inch) (letterW - 2 * inch) "Helvetica-Bold" 18 22).2 - 10)).1 := by
      rw [_draw_paragraph, split_single_word M (letterW - 2 * inch) "Helvetica-Bold" 12
        "Abstract" "Abstract" (by decide)]
    simp only [_create_pdf, List.mem_append]
    exact Or.inl (Or.inl (Or.inl (Or.inr (hd.symm ▸ hty))))
  · intro h
    subst h
    simp only [_create_pdf, List.isEmpty_nil, if_true, List.append_nil]

/-! ### Monotonic cursor within a page -/

lemma trace_append_aux : ∀ {l1 : List Instr} {a b : ℚ}, Trace a l1 b →
    ∀ {l2 : List Instr} {c : ℚ}, Trace b l2 c → Trace a (l1 ++ l2) c := by
  intro l1 a b h1
  induction h1 with
  | nil => intro l2 c h2; exact h2
  | text s x ty f sz hlt htail ih =>
    intro l2 c h2; exact Trace.text s x ty f sz hlt (ih h2)
  | img x yy w h hle htail ih => intro l2 c h2; exact Trace.img x yy w h hle (ih h2)
  | brk htail ih => intro l2 c h2; exact Trace.brk (ih h2)
  | gap hle htail ih => intro l2 c h2; exact Trace.gap hle (ih h2)

lemma trace_append {l1 l2 : List Instr} {a b c : ℚ} (h2 : Trace b l2 c)
    (h1 : Trace a l1 b) : Trace a (l1 ++ l2) c :=
  trace_append_aux h1 h2

lemma trace_lower : ∀ {l : List Instr} {a b c : ℚ}, Trace a l b → c ≤ b →
    Trace a l c := by
  intro l a b c h
  induction h with
  | nil => intro hc; exact Trace.gap hc Trace.nil
  | text s x ty f sz hlt htail ih => intro hc; exact Trace.text s x ty f sz hlt (ih hc)
  | img x yy w h hle htail ih => intro hc; exact Trace.img x yy w h hle (ih hc)
  | brk htail ih => intro hc; exact Trace.brk (ih hc)
  | gap hle htail ih => intro hc; exact Trace.gap hle (ih hc)

lemma drawLoop_trace (M : Measurer) (x mw : ℚ) (fn : String) (fsz ld : ℕ)
    (hld : 0 < ld) : ∀ (lines : List String) (y : ℚ),
    Trace y (drawLoop M x mw fn fsz ld lines y).1
      (drawLoop M x mw fn fsz ld lines y).2 := by
  have hldq : (0 : ℚ) < ld := by exact_mod_cast hld
  intro lines
  induction lines with
  | nil => intro y; exact Trace.nil
  | cons line rest ih =>
    intro y
    by_cases hc : y < inch
    · simp only [drawLoop, if_pos hc]
      exact Trace.brk (Trace.text line x (letterH - inch) fn fsz
        (sub_lt_self _ hldq) (ih _))
    · simp only [drawLoop, if_neg hc]
      exact Trace.text line x y fn fsz (sub_lt_self _ hldq) (ih _)

lemma dp_trace (M : Measurer) (s : String) (x y mw : ℚ) (fn : String)
    (fsz ld : ℕ) (hld : 0 < ld) :
    Trace y (_draw_paragraph M s x y mw fn fsz ld).1
      (_draw_paragraph M s x y mw fn fsz ld).2 := by
  rw [_draw_paragraph]
  exact drawLoop_trace M x mw fn fsz ld hld _ y

lemma bodyLoop_trace (M : Measurer) : ∀ (ps : List String) (y : ℚ),
    Trace y (bodyLoop M ps y).1 (bodyLoop M ps y).2 := by
  intro ps
  induction ps with
  | nil => intro y; exact Trace.nil
  | cons p rest ih =>
    intro y
    simp only [bodyLoop]
    exact trace_append (Trace.gap (by linarith) (ih _))
      (dp_trace M p inch y (letterW - 2 * inch) "Helvetica" 11 15 (by norm_num))

lemma figScale_nonneg_of_pos (iw ihh : ℚ) (hiw : 0 < iw) (hih : 0 < ihh) :
    0 ≤ figScale iw ihh := by
  refine le_min (div_nonneg ?_ hiw.le) (le_min (div_nonneg ?_ hih.le) ?_) <;>
    norm_num [letterW, inch]

lemma figStep_trace (M : Measurer) (g : FigureAsset → ℚ × ℚ) (f : FigureAsset)
    (y : ℚ) (hf : 0 < (g f).1 ∧ 0 < (g f).2) :
    Trace y (figStep M g f y).1 (figStep M g f y).2 := by
  simp only [figStep]
  by_cases hs : pyStartsWith f.data_uri "data:image/" = true
  · rw [if_pos hs]
    dsimp only
    have hdh : 0 ≤ (g f).2 * figScale (g f).1 (g f).2 :=
      mul_nonneg hf.2.le (figScale_nonneg_of_pos _ _ hf.1 hf.2)
    exact trace_append
      (trace_lower (dp_trace M f.caption inch _ (letterW - 2 * inch)
        "Helvetica-Oblique" 9 12 (by norm_num)) (by linarith))
      (Trace.img _ _ _ _ (by linarith) Trace.nil)
  · rw [if_neg hs]
    dsimp only
    simp only [List.nil_append]
    exact trace_lower (dp_trace M f.caption inch y (letterW - 2 * inch)
      "Helvetica-Oblique" 9 12 (by norm_num)) (by linarith)

lemma figuresLoop_trace (M : Measurer) (g : FigureAsset → ℚ × ℚ) :
    ∀ (figs : List FigureAsset) (y : ℚ),
      (∀ f ∈ figs, 0 < (g f).1 ∧ 0 < (g f).2) →
      Trace y (figuresLoop M g figs y).1 (figuresLoop M g figs y).2 := by
  intro figs
  induction figs with
  | nil => intro y _; exact Trace.nil
  | cons f fs ih =>
    intro y hg
    have hf := hg f (List.mem_cons_self f fs)
    have hrest := fun d hd => hg d (List.mem_cons_of_mem f hd)
    by_cases hc : y < 2 * inch
    · simp only [figuresLoop, if_pos hc]
      exact trace_append (ih _ hrest)
        (trace_append (figStep_trace M g f _ hf) (Trace.brk Trace.nil))
    · simp only [figuresLoop, if_neg hc]
      simp only [List.nil_append]
      exact trace_append (ih _ hrest) (figStep_trace M g f _ hf)

lemma create_pdf_trace (M : Measurer) (g : FigureAsset → ℚ × ℚ)
    (title abstract : String) (body : List String) (figs : List FigureAsset)
    (hg : ∀ f ∈ figs, 0 < (g f).1 ∧ 0 < (g f).2) :
    ∃ yf, Trace (letterH - inch) (_create_pdf M g title abstract body figs) yf := by
  simp only [_create_pdf]
  by_cases hfe : figs.isEmpty
  · simp only [if_pos hfe, List.append_nil]
    exact ⟨_, trace_append (bodyLoop_trace M body _)
      (trace_append
        (trace_lower (dp_trace M abstract inch _ (letterW - 2 * inch)
          "Helvetica" 11 15 (by norm_num)) (by linarith))
        (trace_append
          (dp_trace M "Abstract" inch _ (letterW - 2 * inch)
            "Helvetica-Bold" 12 16 (by norm_num))
          (trace_lower (dp_trace M _ inch (letterH - inch) (letterW - 2 * inch)
            "Helvetica-Bold" 18 22 (by norm_num)) (by linarith))))⟩
  · simp only [if_neg hfe]
    have hfigseg : ∀ z : ℚ, Trace z
        ((_draw_paragraph M "Figures" inch z (letterW - 2 * inch)
            "Helvetica-Bold" 12 16).1 ++
          (figuresLoop M g figs (_draw_paragraph M "Figures" inch z
            (letterW - 2 * inch) "Helvetica-Bold" 12 16).2).1)
        (figuresLoop M g figs (_draw_paragraph M "Figures" inch z
          (letterW - 2 * inch) "Helvetica-Bold" 12 16).2).2 := by
      intro z
      exact trace_append (figuresLoop_trace M g figs _ hg)
        (dp_trace M "Figures" inch z (letterW - 2 * inch) "Helvetica-Bold" 12 16
          (by norm_num))
    exact ⟨_, trace_append (hfigseg _)
      (trace_append (bodyLoop_trace M body _)
        (trace_append
          (trace_lower (dp_trace M abstract inch _ (letterW - 2 * inch)
            "Helvetica" 11 15 (by norm_num)) (by linarith))
          (trace_append
            (dp_trace M "Abstract" inch _ (letterW - 2 * inch)
              "Helvetica-Bold" 12 16 (by norm_num))
            (trace_lower (dp_trace M _ inch (letterH - inch) (letterW - 2 * inch)
              "Helvetica-Bold" 18 22 (by norm_num)) (by linarith)))))⟩

lemma trace_okFrom : ∀ {l : List Instr} {c y' : ℚ}, Trace c l y' →
    ∀ (strict : Bool) (b : ℚ), (if strict then c < b else c ≤ b) →
    okFrom strict b l := by
  intro l c y' h
  induction h with
  | nil => intro strict b _; simp [okFrom]
  | text s x ty f sz hlt htail ih =>
    intro strict b hb
    simp only [okFrom]
    refine ⟨hb, ?_⟩
    refine ih true _ ?_
    simpa using hlt
  | img x yy w h hle htail ih =>
    intro strict b hb
    simp only [okFrom]
    refine ih strict b ?_
    cases strict
    · simp only [Bool.false_eq_true, if_false] at hb ⊢; linarith
    · simp only [if_true] at hb ⊢; linarith
  | brk htail ih =>
    intro strict b hb
    simp only [okFrom]
    exact ih false (letterH - inch) (by simp)
  | gap hle htail ih =>
    intro strict b hb
    refine ih strict b ?_
    cases strict
    · simp only [Bool.false_eq_true, if_false] at hb ⊢; linarith
    · simp only [if_true] at hb ⊢; linarith

lemma splitPages_ne_nil : ∀ l : List Instr, splitPages l ≠ [] := by
  intro l
  cases l with
  | nil => simp [splitPages]
  | cons i rest => cases i <;> simp [splitPages]

lemma headI_mem_of_ne_nil {α : Type} [Inhabited α] :
    ∀ l : List α, l ≠ [] → l.headI ∈ l := by
  intro l h
  cases l with
  | nil => exact absurd rfl h
  | cons a as => exact List.mem_cons_self a as

lemma okFrom_pages : ∀ (l : List Instr) (strict : Bool) (b : ℚ),
    okFrom strict b l →
    (∀ p ∈ splitPages l, List.Chain' yDesc (textYs p)) ∧
    (∀ y : ℚ, (textYs ((splitPages l).headI)).head? = some y →
      (strict = true → y < b) ∧ (strict = false → y ≤ b)) := by
  intro l
  induction l with
  | nil =>
    intro strict b _
    constructor
    · intro p hp
      simp only [splitPages, List.mem_singleton] at hp
      subst hp
      simp [textYs]
    · intro y hy
      simp [splitPages, textYs] at hy
  | cons i rest ih =>
    intro strict b hok
    cases i with
    | text s x ty f sz =>
      simp only [okFrom] at hok
      obtain ⟨hb, hok2⟩ := hok
      obtain ⟨ih1, ih2⟩ := ih true ty hok2
      have hty : textYs (Instr.text s x ty f sz :: (splitPages rest).headI) =
          ty :: textYs ((splitPages rest).headI) := by simp [textYs]
      constructor
      · intro p hp
        simp only [splitPages, List.mem_cons] at hp
        rcases hp with hp | hp
        · subst hp
          rw [hty, List.chain'_cons']
          constructor
          · intro y hy
            exact (ih2 y hy).1 rfl
          · exact ih1 _ (headI_mem_of_ne_nil _ (splitPages_ne_nil rest))
        · exact ih1 p (List.mem_of_mem_tail hp)
      · intro y hy
        rw [show (splitPages (Instr.text s x ty f sz :: rest)).headI =
          Instr.text s x ty f sz :: (splitPages rest).headI from rfl, hty] at hy
        have hyty : y = ty := by
          simp only [List.head?_cons, Option.some.injEq] at hy
          exact hy.symm
        subst hyty
        constructor
        · intro hs
          subst hs
          simpa using hb
        · intro hs
          subst hs
          simpa using hb
    | image x yy w h =>
      simp only [okFrom] at hok
      obtain ⟨ih1, ih2⟩ := ih strict b hok
      have hty : textYs (Instr.image x yy w h :: (splitPages rest).headI) =
          textYs ((splitPages rest).headI) := by simp [textYs]
      constructor
      · intro p hp
        simp only [splitPages, List.mem_cons] at hp
        rcases hp with hp | hp
        · subst hp
          rw [hty]
          exact ih1 _ (headI_mem_of_ne_nil _ (splitPages_ne_nil rest))
        · exact ih1 p (List.mem_of_mem_tail hp)
      · intro y hy
        rw [show (splitPages (Instr.image x yy w h :: rest)).headI =
          Instr.image x yy w h :: (splitPages rest).headI from rfl, hty] at hy
        exact ih2 y hy
    | pageBreak =>
      simp only [okFrom] at hok
      obtain ⟨ih1, ih2⟩ := ih false (letterH - inch) hok
      constructor
      · intro p hp
        simp only [splitPages, List.mem_cons] at hp
        rcases hp with hp | hp
        · subst hp
          simp [textYs]
        · exact ih1 p hp
      · intro y hy
        rw [show (splitPages (Instr.pageBreak :: rest)).headI = [] from rfl] at hy
        simp [textYs] at hy

/-- C8: within any single page of the output, the y-coordinates of the Text
instructions on that page are strictly decreasing, for every document whose
figures have positive native image dimensions. -/
theorem page_monotonic_cursor (M : Measurer) (g : FigureAsset → ℚ × ℚ)
    (title abstract : String) (body : List String) (figs : List FigureAsset)
    (hg : ∀ f ∈ figs, 0 < (g f).1 ∧ 0 < (g f).2) :
    ∀ p ∈ splitPages (_create_pdf M g title abstract body figs),
      List.Chain' yDesc (textYs p) := by
  obtain ⟨yf, htrace⟩ := create_pdf_trace M g title abstract body figs hg
  have hok : okFrom false (letterH - inch)
      (_create_pdf M g title abstract body figs) :=
    trace_okFrom htrace false (letterH - inch) (by simp)
  exact (okFrom_pages _ false (letterH - inch) hok).1

/-! ### Concrete evaluations and witnesses -/

lemma figScale_square : figScale 100 100 = 1 := by
  norm_num [figScale, min_def, letterW, inch]

lemma sample_uri_image : pyStartsWith "data:image/png;base64,xyz" "data:image/" = true := by
  decide

lemma figStep_sample_629 :
    figStep lenMeasure squareSize sampleFig 629 =
      ([Instr.image 72 529 100 100,
        Instr.text "cap" 72 521 "Helvetica-Oblique" 9], 499) := by
  have hd := draw_single_eval lenMeasure "cap" 72 521 468 "Helvetica-Oblique" 9 12
    (by decide) (by norm_num [inch])
  norm_num [figStep, sampleFig, squareSize, sample_uri_image, figScale_square,
    hd, inch, letterW]

lemma figStep_sample_720 :
    figStep lenMeasure squareSize sampleFig 720 =
      ([Instr.image 72 620 100 100,
        Instr.text "cap" 72 612 "Helvetica-Oblique" 9], 590) := by
  have hd := draw_single_eval lenMeasure "cap" 72 612 468 "Helvetica-Oblique" 9 12
    (by decide) (by norm_num [inch])
  norm_num [figStep, sampleFig, squareSize, sample_uri_image, figScale_square,
    hd, inch, letterW]

lemma create_pdf_fig_eval :
    _create_pdf lenMeasure squareSize "T" "A" [] [sampleFig] =
      [Instr.text "T" 72 720 "Helvetica-Bold" 18,
        Instr.text "Abstract" 72 688 "Helvetica-Bold" 12,
        Instr.text "A" 72 672 "Helvetica" 11,
        Instr.text "Figures" 72 645 "Helvetica-Bold" 12,
        Instr.image 72 529 100 100,
        Instr.text "cap" 72 521 "Helvetica-Oblique" 9] := by
  have hif : (if ("T" : String) = "" then "Untitled Manuscript" else "T") = "T" := rfl
  have hd1 := draw_single_eval lenMeasure "T" 72 720 468 "Helvetica-Bold" 18 22
    (by decide) (by norm_num [inch])
  have hd2 := draw_single_eval lenMeasure "Abstract" 72 688 468 "Helvetica-Bold" 12 16
    (by decide) (by norm_num [inch])
  have hd3 := draw_single_eval lenMeasure "A" 72 672 468 "Helvetica" 11 15
    (by decide) (by norm_num [inch])
  have hd4 := draw_single_eval lenMeasure "Figures" 72 645 468 "Helvetica-Bold" 12 16
    (by decide) (by norm_num [inch])
  have hfl : figuresLoop lenMeasure squareSize [sampleFig] 629 =
      ([Instr.image 72 529 100 100,
        Instr.text "cap" 72 521 "Helvetica-Oblique" 9], 499) := by
    norm_num [figuresLoop, figStep_sample_629, inch]
  norm_num [_create_pdf, hif, hd1, hd2, hd3, hd4, bodyLoop, hfl, letterH, letterW, inch]

/-- Witness for C4: the concrete 100 × 100 figure is drawn unscaled and its
dimensions satisfy both bounds. -/
theorem image_scale_bounded_witness :
    (100 : ℚ) ≤ letterW - 2 * inch ∧ (100 : ℚ) ≤ (3.25 : ℚ) * inch := by
  have hg : ∀ f ∈ [sampleFig], 0 < (squareSize f).1 ∧ 0 < (squareSize f).2 := by
    intro f _
    constructor <;> norm_num [squareSize]
  refine (image_scale_bounded lenMeasure squareSize "T" "A" [] [sampleFig] hg).2
    72 529 100 100 ?_
  rw [create_pdf_fig_eval]
  simp

/-- Witness for C7: with only 100 points left (below the 144-point
threshold), the figure loop breaks the page and draws the figure from the
top of a fresh page. -/
theorem figure_min_space_break_witness :
    figuresLoop lenMeasure squareSize [sampleFig] 100 =
      ([Instr.pageBreak, Instr.image 72 620 100 100,
        Instr.text "cap" 72 612 "Helvetica-Oblique" 9], 590) := by
  rw [(figure_min_space_break lenMeasure squareSize sampleFig [] 100).1
    (by norm_num [inch]), topY, figStep_sample_720]
  simp [figuresLoop]

/-- Witness for C8: the text y-coordinates on the first page of a concrete
one-figure document are strictly decreasing. -/
theorem page_monotonic_cursor_witness :
    List.Chain' yDesc (textYs ((splitPages
      (_create_pdf lenMeasure squareSize "T" "A" [] [sampleFig])).headI)) := by
  have hg : ∀ f ∈ [sampleFig], 0 < (squareSize f).1 ∧ 0 < (squareSize f).2 := by
    intro f _
    constructor <;> norm_num [squareSize]
  exact page_monotonic_cursor lenMeasure squareSize "T" "A" [] [sampleFig] hg _
    (headI_mem_of_ne_nil _ (splitPages_ne_nil _))

/-- Witness for C10: a figure with a non-image data URI yields only its
caption text, no Image instruction, and the loop continues normally. -/
theorem non_image_figure_caption_only_witness :
    figuresLoop lenMeasure squareSize [plainFig] 200 =
      ([Instr.text "cap" 72 200 "Helvetica-Oblique" 9], 178) := by
  have hc : ¬ ((200 : ℚ) < 2 * inch) := by norm_num [inch]
  have hd := draw_single_eval lenMeasure "cap" 72 200 468 "Helvetica-Oblique" 9 12
    (by decide) (by norm_num [inch])
  rw [(non_image_figure_caption_only lenMeasure squareSize plainFig [] 200
    (by decide)).1]
  norm_num [hc, plainFig, hd, figuresLoop, inch, letterW, letterH]
